import Mathlib

/-!
Verification of the executor core of the regen package: the serial and
fork-join generator executors, the repeated-execution helper, and the
GeneratorError wrapping type, embedded shallowly from
src/unnamed/part_000 and src/generator_error.go.
-/

namespace Regen

/-- A generator: the external capability both executors consume. In the
source the Generator interface is used single-valued — the calls
`buffer.WriteString(generators[i].Generate())` (part_000 line 61) and
`results[i] = generators[i].Generate()` (part_000 line 87) compile only
if Generate() returns exactly one string and no error — so a generator
is modeled by the string its Generate call produces. -/
structure Generator where
  generate : String
deriving DecidableEq

/-- The concatenation of the generators' outputs in submission order:
the output the spec describes for both executors. -/
def concatOutputs : List Generator → String
  | [] => ""
  | g :: rest => g.generate ++ concatOutputs rest

/-- serialExecutor.Execute (part_000 lines 56 to 65): a bytes.Buffer
accumulates generators[i].Generate() for i = 0 .. numGens-1 and the
final buffer contents are returned; the indexed loop is the left fold
of WriteString over the task list. The signature returns only a
string: there is no error result and no early exit in the loop. -/
def serialExecute (generators : List Generator) : String :=
  generators.foldl (fun buffer g => buffer ++ g.generate) ""

/-- The same serial loop instrumented with its invocation trace:
running the loop from index i onward yields the buffer contents
produced and the indices whose Generate was invoked, in invocation
order. -/
def serialFrom : List Generator → Nat → String × List Nat
  | [], _ => ("", [])
  | g :: rest, i =>
      let r := serialFrom rest (i + 1)
      (g.generate ++ r.1, i :: r.2)

/-- serialExecutor.Execute together with its invocation trace (the
loop starts at index 0). -/
def serialExecuteTrace (generators : List Generator) : String × List Nat :=
  serialFrom generators 0

/-- strings.Join(results, "") as used at part_000 line 92: the
concatenation of the result slots in slot order. -/
def joinStrings : List String → String
  | [] => ""
  | s :: rest => s ++ joinStrings rest

/-- The body of the goroutine launched for index i (part_000 lines 85
to 88): results[i] = generators[i].Generate(). Goroutines exist only
for i < numGens, so the lookup default is never reached on the
schedules considered; List.set ignores out-of-range writes. -/
def writeSlot (generators : List Generator) (results : List String) (i : Nat) : List String :=
  results.set i (generators.getD i ⟨""⟩).generate

/-- Running the launched goroutines in the order given by sched: each
entry of sched is the index of the goroutine whose write to its
dedicated slot happens next. Slots are disjoint, so this order is the
only concurrency freedom in forkJoinExecutor.Execute. -/
def runSchedule (generators : List Generator) (sched : List Nat) (results : List String) : List String :=
  sched.foldl (writeSlot generators) results

/-- forkJoinExecutor.Execute (part_000 lines 78 to 93): results :=
make([]string, numGens, numGens) starts as numGens empty strings, one
goroutine per index writes its own slot, waiter.Wait() blocks until
every goroutine has run, and the slots are joined in index order.
sched records the order in which the goroutine writes happen; the
WaitGroup barrier is the hypothesis, in the theorems below, that sched
is a permutation of range numGens (every launched goroutine runs
exactly once before the join). -/
def forkJoinExecute (generators : List Generator) (sched : List Nat) : String :=
  joinStrings (runSchedule generators sched (List.replicate generators.length ""))

/-- The task list built by executeGeneratorRepeatedly (part_000 lines
41 to 45): make([]Generator, n, n) followed by generators[i] =
generator for every i < n. -/
def buildRepeated (generator : Generator) : Nat → List Generator
  | 0 => []
  | n + 1 => generator :: buildRepeated generator n

/-- executeGeneratorRepeatedly (part_000 lines 40 to 48) for n >= 0:
builds the task list and returns executor.Execute(generators). The
GeneratorExecutor interface (part_000 lines 29 to 31) has the single
method Execute, so an executor is modeled as a function from task
lists to strings. -/
def executeGeneratorRepeatedly (executor : List Generator → String) (generator : Generator) (n : Nat) : String :=
  executor (buildRepeated generator n)

/-- executeGeneratorRepeatedly over the full Go int domain of n:
make([]Generator, n, n) panics at runtime for n < 0 (makeslice: len
out of range), modeled as none; otherwise the n >= 0 behavior. -/
def executeGeneratorRepeatedlyInt (executor : List Generator → String) (generator : Generator) (n : Int) : Option String :=
  if n < 0 then none else some (executor (buildRepeated generator n.toNat))

/-- A Go error value as generator_error.go manipulates it: either a
GeneratorError — the struct with fields ErrorStr and Cause, where
Cause is an error interface value that may be nil (none) — or any
other error, which renders as its own message. -/
inductive GoError where
  | basic (msg : String)
  | generatorError (errorStr : String) (cause : Option GoError)

/-- GeneratorError.Error (generator_error.go lines 32 to 34) renders
fmt.Sprintf("%s\ncaused by %s", err.ErrorStr, err.Cause.Error()),
extended to every error value. Calling Error() through a nil Cause is
a nil interface method call and panics, modeled as none; a panic in a
nested layer propagates outward through the map. -/
def GoError.Error : GoError → Option String
  | .basic msg => some msg
  | .generatorError errorStr cause =>
      match cause with
      | none => none
      | some c => (GoError.Error c).map (fun m => errorStr ++ "\ncaused by " ++ m)

/-- Claim C4 as stated, with the notion of generator failure left
abstract because the source gives generators no way to fail: whenever
the generator at index k is the first to fail, serialExecutor.Execute
invokes no generator at an index after k. (The claim additionally
requires an ExecutionError return; refuting this invocation clause
already refutes the conjunction.) -/
def SerialStopsAtFirstFailure : Prop :=
  ∀ (fails : Generator → Prop) (generators : List Generator) (k : Nat),
    k < generators.length →
    fails (generators.getD k ⟨""⟩) →
    (∀ j, j < k → ¬ fails (generators.getD j ⟨""⟩)) →
    ∀ j ∈ (serialExecuteTrace generators).2, j ≤ k

/-- Claim C5 as stated, with the notion of generator failure left
abstract: whenever some generator fails, forkJoinExecutor.Execute
reports the failure to the caller instead of silently returning the
plain concatenation of every output. -/
def ForkJoinReportsFailure : Prop :=
  ∀ (fails : Generator → Prop) (generators : List Generator) (sched : List Nat),
    sched.Perm (List.range generators.length) →
    (∃ g ∈ generators, fails g) →
    forkJoinExecute generators sched ≠ concatOutputs generators

/-- Claim C7 as stated: Error() succeeds on every GeneratorError
value, including one whose Cause is unset. -/
def ErrorRenderingTotal : Prop :=
  ∀ (errorStr : String) (cause : Option GoError),
    (GoError.Error (GoError.generatorError errorStr cause)).isSome = true

/-! Helper lemmas about the embedded functions. -/

/-- The serial buffer loop started from an arbitrary buffer appends the
concatenation of the remaining outputs. -/
theorem serial_foldl_eq (generators : List Generator) :
    ∀ b : String, generators.foldl (fun buffer g => buffer ++ g.generate) b
      = b ++ concatOutputs generators := by
  induction generators with
  | nil => intro b; simp [concatOutputs]
  | cons g rest ih =>
      intro b
      simp only [List.foldl_cons, concatOutputs]
      rw [ih, String.append_assoc]

/-- serialExecutor.Execute returns the concatenation of the outputs in
submission order. -/
theorem serialExecute_eq_concatOutputs (generators : List Generator) :
    serialExecute generators = concatOutputs generators := by
  rw [serialExecute, serial_foldl_eq, String.empty_append]

/-- The string component of the instrumented serial loop does not depend
on the starting index and equals the concatenation of the outputs. -/
theorem serialFrom_fst (generators : List Generator) :
    ∀ i : Nat, (serialFrom generators i).1 = concatOutputs generators := by
  induction generators with
  | nil => intro i; rfl
  | cons g rest ih => intro i; simp [serialFrom, concatOutputs, ih]

/-- The trace of the serial loop started at index i is the interval of
indices from i of the length of the list, in ascending order. -/
theorem serialFrom_snd (generators : List Generator) :
    ∀ i : Nat, (serialFrom generators i).2 = List.range' i generators.length := by
  induction generators with
  | nil => intro i; rfl
  | cons g rest ih => intro i; simp [serialFrom, List.range'_succ, ih]

/-- Joining the mapped outputs gives the concatenation in order. -/
theorem joinStrings_map_generate (generators : List Generator) :
    joinStrings (generators.map Generator.generate) = concatOutputs generators := by
  induction generators with
  | nil => rfl
  | cons g rest ih => simp [joinStrings, concatOutputs, ih]

/-- Goroutine writes never change the length of the result slice. -/
theorem runSchedule_length (generators : List Generator) (sched : List Nat) :
    ∀ results : List String,
      (runSchedule generators sched results).length = results.length := by
  induction sched with
  | nil => intro results; rfl
  | cons i rest ih =>
      intro results
      show (runSchedule generators rest (writeSlot generators results i)).length = _
      rw [ih, writeSlot, List.length_set]

/-- After running a schedule, a slot holds its goroutine output exactly
when its index appears in the schedule, and is untouched otherwise. -/
theorem runSchedule_getElem (generators : List Generator) (sched : List Nat) :
    ∀ (results : List String) (j : Nat), j < results.length →
      (runSchedule generators sched results)[j]? =
        if j ∈ sched then some (generators.getD j ⟨""⟩).generate else results[j]? := by
  induction sched with
  | nil => intro results j hj; simp [runSchedule]
  | cons i rest ih =>
      intro results j hj
      have hlen : (writeSlot generators results i).length = results.length := by
        rw [writeSlot, List.length_set]
      have step : runSchedule generators (i :: rest) results
          = runSchedule generators rest (writeSlot generators results i) := rfl
      rw [step, ih (writeSlot generators results i) j (by rw [hlen]; exact hj)]
      by_cases hmem : j ∈ rest
      · simp [hmem, List.mem_cons]
      · by_cases hij : i = j
        · subst hij
          simp [hmem, List.mem_cons, writeSlot, List.getElem?_set, hj]
        · simp [hmem, List.mem_cons, hij, Ne.symm hij, writeSlot, List.getElem?_set]

/-- When every index below numGens appears in the schedule (each launched
goroutine has run before the join), the final result slice is exactly the
list of generator outputs in index order. -/
theorem runSchedule_complete (generators : List Generator) (sched : List Nat)
    (h : ∀ j, j < generators.length → j ∈ sched) :
    runSchedule generators sched (List.replicate generators.length "")
      = generators.map Generator.generate := by
  apply List.ext_getElem?
  intro j
  by_cases hj : j < generators.length
  · rw [runSchedule_getElem generators sched _ j (by simp [hj]), if_pos (h j hj),
      List.getElem?_map, List.getD_eq_getElem _ _ hj, List.getElem?_eq_getElem hj]
    rfl
  · rw [List.getElem?_eq_none (by rw [runSchedule_length]; simp; omega),
      List.getElem?_eq_none (by simp; omega)]

/-- forkJoinExecutor.Execute returns the concatenation in submission order
for every schedule in which each launched goroutine runs exactly once. -/
theorem forkJoinExecute_eq_of_perm (generators : List Generator) (sched : List Nat)
    (h : sched.Perm (List.range generators.length)) :
    forkJoinExecute generators sched = concatOutputs generators := by
  rw [forkJoinExecute,
    runSchedule_complete generators sched
      (fun j hj => h.mem_iff.mpr (List.mem_range.mpr hj)),
    joinStrings_map_generate]

/-- The task list built by executeGeneratorRepeatedly is n copies of the
same generator value. -/
theorem buildRepeated_eq_replicate (generator : Generator) :
    ∀ n : Nat, buildRepeated generator n = List.replicate n generator := by
  intro n
  induction n with
  | zero => rfl
  | succ m ih => simp [buildRepeated, List.replicate_succ, ih]

/-! Claim theorems. -/

/-- C1: for every task list (every Generate call trivially succeeds, since
Generate returns only a string and has no failure path) and every order in
which the fork-join goroutines run, forkJoinExecutor.Execute and
serialExecutor.Execute return byte-identical strings, namely the
concatenation of the generators' outputs in submission order. -/
theorem serial_forkJoin_byte_identical (generators : List Generator) (sched : List Nat)
    (h : sched.Perm (List.range generators.length)) :
    forkJoinExecute generators sched = serialExecute generators ∧
      serialExecute generators = concatOutputs generators :=
  ⟨by rw [forkJoinExecute_eq_of_perm generators sched h,
      serialExecute_eq_concatOutputs generators],
    serialExecute_eq_concatOutputs generators⟩

theorem serial_forkJoin_byte_identical_witness :
    forkJoinExecute [⟨"a"⟩, ⟨"b"⟩, ⟨"c"⟩] [1, 2, 0] = serialExecute [⟨"a"⟩, ⟨"b"⟩, ⟨"c"⟩] ∧
      serialExecute [⟨"a"⟩, ⟨"b"⟩, ⟨"c"⟩] = concatOutputs [⟨"a"⟩, ⟨"b"⟩, ⟨"c"⟩] :=
  serial_forkJoin_byte_identical [⟨"a"⟩, ⟨"b"⟩, ⟨"c"⟩] [1, 2, 0] (by decide)

/-- C2: the fork-join executor concatenates the per-task results strictly in
original task order (index 0, 1, ..., N-1), never in completion order: the
result is the submission-order concatenation for every schedule of the
goroutine writes, that is, under arbitrary interleaving and arbitrary
per-task latency. -/
theorem forkJoin_submission_order (generators : List Generator) (sched : List Nat)
    (h : sched.Perm (List.range generators.length)) :
    forkJoinExecute generators sched = concatOutputs generators :=
  forkJoinExecute_eq_of_perm generators sched h

theorem forkJoin_submission_order_witness :
    forkJoinExecute [⟨"x0"⟩, ⟨"y1"⟩, ⟨"z2"⟩] [2, 1, 0] = concatOutputs [⟨"x0"⟩, ⟨"y1"⟩, ⟨"z2"⟩] :=
  forkJoin_submission_order [⟨"x0"⟩, ⟨"y1"⟩, ⟨"z2"⟩] [2, 1, 0] (by decide)

/-- C3: serialExecutor.Execute invokes each generator exactly once, in list
order — its invocation trace is exactly the indices 0 .. N-1 in ascending
order — and returns the concatenation of the N results in that same
order. -/
theorem serial_invokes_in_order (generators : List Generator) :
    serialExecuteTrace generators = (concatOutputs generators, List.range generators.length) ∧
      serialExecute generators = concatOutputs generators := by
  refine ⟨?_, serialExecute_eq_concatOutputs generators⟩
  rw [serialExecuteTrace, List.range_eq_range']
  exact Prod.ext (serialFrom_fst generators 0) (serialFrom_snd generators 0)

/-- C4 counterexample: reading failure as producing the output "boom", the
list [a, boom, c] has its first failure at index 1, yet the serial executor
also invokes index 2: the loop at part_000 lines 60 to 62 has no early exit
and the Execute signature (part_000 line 30) has no error result, so the
claim is false for every possible notion of generator failure that this
input exhibits. -/
theorem serial_no_early_stop_cex : ¬ SerialStopsAtFirstFailure := by
  intro h
  have h2 := h (fun g => g.generate = "boom") [⟨"a"⟩, ⟨"boom"⟩, ⟨"c"⟩] 1
      (by decide) (by decide)
      (fun j hj => by
        have hj0 : j = 0 := by omega
        subst hj0
        decide)
      2 (by decide)
  exact absurd h2 (by decide)

/-- C4 amended: generators cannot fail (Generate returns only a string and
Execute returns only a string), so serialExecutor.Execute never stops
early and never returns an error: every index below N is invoked and the
full concatenation is returned. -/
theorem serial_invokes_all_indices (generators : List Generator) :
    (∀ k, k < generators.length → k ∈ (serialExecuteTrace generators).2) ∧
      serialExecute generators = concatOutputs generators := by
  refine ⟨?_, serialExecute_eq_concatOutputs generators⟩
  intro k hk
  rw [serialExecuteTrace, serialFrom_snd, ← List.range_eq_range', List.mem_range]
  exact hk

theorem serial_invokes_all_indices_witness :
    2 ∈ (serialExecuteTrace [⟨"a"⟩, ⟨"boom"⟩, ⟨"c"⟩]).2 ∧
      serialExecute [⟨"a"⟩, ⟨"boom"⟩, ⟨"c"⟩] = concatOutputs [⟨"a"⟩, ⟨"boom"⟩, ⟨"c"⟩] :=
  ⟨(serial_invokes_all_indices [⟨"a"⟩, ⟨"boom"⟩, ⟨"c"⟩]).1 2 (by decide),
    (serial_invokes_all_indices [⟨"a"⟩, ⟨"boom"⟩, ⟨"c"⟩]).2⟩

/-- C5 counterexample: reading failure as producing the output "boom", the
list [a, boom, c] contains a failing generator, yet forkJoinExecutor.Execute
returns exactly the plain concatenation "aboomc" of every output: it has no
error result (part_000 line 30) and reports nothing to the caller, so the
claim is false for every possible notion of generator failure that this
input exhibits. -/
theorem forkJoin_no_failure_report_cex : ¬ ForkJoinReportsFailure := by
  intro h
  exact h (fun g => g.generate = "boom") ([⟨"a"⟩, ⟨"boom"⟩, ⟨"c"⟩] : List Generator) [0, 1, 2]
    (by decide) ⟨⟨"boom"⟩, by decide, rfl⟩ (by decide)

/-- C5 amended: every goroutine runs to completion and writes its own slot
(the final result slice is the full list of outputs in index order) — no
unit cancels the others — but the executor reports no failure: it always
returns the plain concatenation of every output, as its signature returns
only a string. -/
theorem forkJoin_runs_all_and_concats (generators : List Generator) (sched : List Nat)
    (h : sched.Perm (List.range generators.length)) :
    runSchedule generators sched (List.replicate generators.length "")
        = generators.map Generator.generate ∧
      forkJoinExecute generators sched = concatOutputs generators :=
  ⟨runSchedule_complete generators sched
      (fun _ hj => h.mem_iff.mpr (List.mem_range.mpr hj)),
    forkJoinExecute_eq_of_perm generators sched h⟩

theorem forkJoin_runs_all_and_concats_witness :
    runSchedule [⟨"a"⟩, ⟨"boom"⟩, ⟨"c"⟩] [1, 2, 0]
        (List.replicate (List.length ([⟨"a"⟩, ⟨"boom"⟩, ⟨"c"⟩] : List Generator)) "")
        = List.map Generator.generate [⟨"a"⟩, ⟨"boom"⟩, ⟨"c"⟩] ∧
      forkJoinExecute [⟨"a"⟩, ⟨"boom"⟩, ⟨"c"⟩] [1, 2, 0]
        = concatOutputs [⟨"a"⟩, ⟨"boom"⟩, ⟨"c"⟩] :=
  forkJoin_runs_all_and_concats [⟨"a"⟩, ⟨"boom"⟩, ⟨"c"⟩] [1, 2, 0] (by decide)

/-- C6: when the cause is present, Error() renders the local message
followed on the next line by the cause's own rendering prefixed with
"caused by"; chains of wrapped errors render transitively; and the concrete
ExecutionError with message "building pattern" wrapping a cause rendering
"invalid token" yields the two-line string ending in "caused by invalid
token". -/
theorem generatorError_rendering (errorStr s2 m : String) (c : GoError) :
    GoError.Error (.generatorError errorStr (some c))
        = (GoError.Error c).map (fun cm => errorStr ++ "\ncaused by " ++ cm) ∧
      GoError.Error (.generatorError errorStr (some (.generatorError s2 (some (.basic m)))))
        = some (errorStr ++ "\ncaused by " ++ (s2 ++ "\ncaused by " ++ m)) ∧
      GoError.Error (.generatorError "building pattern" (some (.basic "invalid token")))
        = some ("building pattern" ++ "\n" ++ "caused by " ++ "invalid token") :=
  ⟨rfl, rfl, by decide⟩

/-- C7 counterexample: a GeneratorError whose Cause is unset (nil) does not
render: Error() at generator_error.go line 33 calls err.Cause.Error() on the
nil interface value, a panic, modeled as none. -/
theorem error_rendering_not_total_cex : ¬ ErrorRenderingTotal := by
  intro h
  exact absurd (h "building pattern" none) (by decide)

/-- C7 amended: Error() requires a present Cause: with Cause unset the
rendering panics on a nil dereference and produces no string, while with a
renderable cause it is total and renders the local message plus the cause
text. -/
theorem error_rendering_requires_cause (errorStr m : String) :
    GoError.Error (.generatorError errorStr none) = none ∧
      GoError.Error (.generatorError errorStr (some (.basic m)))
        = some (errorStr ++ "\ncaused by " ++ m) :=
  ⟨rfl, rfl⟩

/-- C8: executeGeneratorRepeatedly builds a task list of length exactly n
whose every element is the same generator value, delegates entirely to the
given executor, yields the empty string for n = 0 with no invocation of the
generator, and with n = 3 and a generator returning "x" yields "xxx" under
the serial executor and under the fork-join executor for every goroutine
schedule. -/
theorem executeRepeatedly_spec (executor : List Generator → String)
    (generator : Generator) (n : Nat) :
    buildRepeated generator n = List.replicate n generator ∧
      (buildRepeated generator n).length = n ∧
      executeGeneratorRepeatedly executor generator n = executor (List.replicate n generator) ∧
      executeGeneratorRepeatedly serialExecute generator 0 = "" ∧
      serialExecuteTrace (buildRepeated generator 0) = ("", []) ∧
      executeGeneratorRepeatedly serialExecute ⟨"x"⟩ 3 = "xxx" ∧
      ∀ sched : List Nat, sched.Perm (List.range 3) →
        forkJoinExecute (buildRepeated ⟨"x"⟩ 3) sched = "xxx" := by
  refine ⟨buildRepeated_eq_replicate generator n, ?_, ?_, rfl, rfl, by decide, ?_⟩
  · rw [buildRepeated_eq_replicate]
    exact List.length_replicate n generator
  · rw [executeGeneratorRepeatedly, buildRepeated_eq_replicate]
  · intro sched hs
    rw [forkJoinExecute_eq_of_perm (buildRepeated ⟨"x"⟩ 3) sched hs]
    decide

theorem executeRepeatedly_spec_witness :
    executeGeneratorRepeatedly serialExecute ⟨"x"⟩ 3 = "xxx" ∧
      forkJoinExecute (buildRepeated ⟨"x"⟩ 3) [2, 0, 1] = "xxx" :=
  ⟨(executeRepeatedly_spec serialExecute ⟨"x"⟩ 3).2.2.2.2.2.1,
    (executeRepeatedly_spec serialExecute ⟨"x"⟩ 3).2.2.2.2.2.2 [2, 0, 1] (by decide)⟩

/-- C9: the empty task list yields the empty string under both executors
(no error is possible, as both Execute signatures return only a string),
and no concurrent unit is launched: the only schedule of the zero launched
goroutines is the empty one. -/
theorem empty_list_empty_string :
    serialExecute [] = "" ∧
      ∀ sched : List Nat,
        sched.Perm (List.range (List.length ([] : List Generator))) →
        forkJoinExecute [] sched = "" ∧ sched = [] := by
  refine ⟨rfl, ?_⟩
  intro sched hs
  have hnil : sched = [] := List.Perm.eq_nil hs
  subst hnil
  exact ⟨rfl, rfl⟩

theorem empty_list_empty_string_witness :
    forkJoinExecute [] [] = "" ∧ ([] : List Nat) = [] :=
  empty_list_empty_string.2 [] (by decide)

/-- C10: with a negative repeat count, make([]Generator, n, n) panics (len
out of range), so executeGeneratorRepeatedly returns no string; for n >= 0
it is total and delegates the replicated task list to the executor. -/
theorem repeat_negative_panics (executor : List Generator → String)
    (generator : Generator) (n : Int) :
    (n < 0 → executeGeneratorRepeatedlyInt executor generator n = none) ∧
      (0 ≤ n → executeGeneratorRepeatedlyInt executor generator n
        = some (executor (buildRepeated generator n.toNat))) := by
  constructor
  · intro hn
    rw [executeGeneratorRepeatedlyInt, if_pos hn]
  · intro hn
    rw [executeGeneratorRepeatedlyInt, if_neg (by omega)]

theorem repeat_negative_panics_witness :
    executeGeneratorRepeatedlyInt serialExecute ⟨"x"⟩ (-1) = none ∧
      executeGeneratorRepeatedlyInt serialExecute ⟨"x"⟩ 2
        = some (serialExecute (buildRepeated ⟨"x"⟩ (Int.toNat 2))) :=
  ⟨(repeat_negative_panics serialExecute ⟨"x"⟩ (-1)).1 (by decide),
    (repeat_negative_panics serialExecute ⟨"x"⟩ 2).2 (by decide)⟩

end Regen
